import Mathlib

/-!
Verification of the AIDOC medical-assistant application (src/app.py).

Shallow embedding of the pieces the spec talks about:
* the keyword filter `is_medical_query` (app.py lines 18-26);
* the Doctor Analysis step machine (app.py lines 96-163): the clinical
  script, the per-render submit logic with its step-0 gate and its
  truthiness guard, the restart button, the summary construction and the
  completion-time generation call;
* the non-vision path of `get_gemini_response` (app.py lines 39-46);
* the Report Result branch with its try/except (app.py lines 175-193).

Python strings become Lean `String`; the session dict `doctor_answers`
becomes an insertion-ordered association list with Python-dict update
semantics; the Streamlit rerun loop becomes explicit state passing.
-/

/-- Python `str.lower` restricted to the ASCII range, which is the only
range the keyword list and the spec examples use. -/
def pyLower (s : String) : String :=
  String.mk (s.toList.map Char.toLower)

/-- Python `needle in haystack` on strings: contiguous-substring test,
on the character lists. `[] in s` is true, as in Python. -/
def substrB (needle : List Char) : List Char → Bool
  | [] => needle.isEmpty
  | c :: cs => needle.isPrefixOf (c :: cs) || substrB needle cs

/-- The fixed keyword list of `is_medical_query` (app.py lines 19-24). -/
def medical_keywords : List String :=
  ["symptom", "disease", "treatment", "medicine", "diagnosis", "doctor",
   "health", "illness", "pain", "fever", "infection", "injury", "test", "scan",
   "medical", "surgery", "prescription", "allergy", "hospital", "clinic",
   "blood", "pressure", "diabetes", "cancer", "asthma", "heart", "lungs",
   "mental health"]

/-- `is_medical_query` (app.py lines 18-26): lower-case the query and test
whether any keyword occurs in it as a substring. -/
def is_medical_query (query : String) : Bool :=
  let query_lower := pyLower query
  medical_keywords.any (fun word => substrB word.toList query_lower.toList)

/-- The clinical interview script of Doctor Analysis mode
(app.py lines 96-112): ordered (step name, question) pairs. -/
def clinical_steps : List (String × String) :=
  [("Chief Complaint", "What brings you in today? What is your main concern?"),
   ("HPI_Onset", "When did this problem start?"),
   ("HPI_Location", "Where is the symptom located?"),
   ("HPI_Duration", "How long does it last? Is it constant or intermittent?"),
   ("HPI_Character", "What does it feel like (e.g., sharp, dull, throbbing, burning)?"),
   ("HPI_Aggravating", "What makes it worse?"),
   ("HPI_Relieving", "What makes it better?"),
   ("HPI_Timing", "Does it occur at a specific time of day?"),
   ("HPI_Severity", "On a scale of 0-10, how bad is it?"),
   ("HPI_Associated", "Are there any other symptoms accompanying the main problem?"),
   ("PMH", "Do you have any chronic conditions, past illnesses, surgeries, or hospitalizations?"),
   ("Medications", "What medications are you currently taking? Any allergies?"),
   ("Family History", "Any significant diseases in your family (e.g., heart disease, diabetes)?"),
   ("Social History", "Do you smoke, drink alcohol, use recreational drugs? What is your occupation and living situation?"),
   ("Review of Systems", "Do you have any other symptoms in other body systems (e.g., fever, cough, rashes, joint pain, etc.)?")]

/-- Insertion-ordered string dictionary, the model of the Python dict
`st.session_state.doctor_answers`. -/
abbrev Answers := List (String × String)

/-- Python dict assignment `d[k] = v`: overwrite in place if the key is
present, append at the end otherwise (insertion order is preserved, as
Python dicts do). -/
def dictSet (d : Answers) (k v : String) : Answers :=
  if (d.map Prod.fst).contains k then
    d.map (fun p => if p.1 = k then (k, v) else p)
  else d ++ [(k, v)]

/-- The Doctor Analysis session state: `st.session_state.doctor_step`
and `st.session_state.doctor_answers` (app.py lines 114-117). -/
structure InterviewState where
  step : Nat
  answers : Answers
deriving Repr, DecidableEq

/-- The initial interview state: step 0, no answers
(app.py lines 114-117). -/
def initState : InterviewState := ⟨0, []⟩

/-- What one render pass of the active interview does with the text-input
value (app.py lines 124-131): `ignored` is the falsy `if user_input`
branch (empty input, no effect at all), `warned` is the step-0
non-medical branch (`st.warning`, no state change), `accepted` records
the answer and advances the step. -/
inductive SubmitOutcome where
  | ignored
  | warned
  | accepted
deriving Repr, DecidableEq

/-- Submitting one answer in Doctor Analysis mode (app.py lines 121-131),
parameterized by the script. In the completed branch there is no text
input, so submission there is a no-op. -/
def submitAnswer (script : List (String × String)) (s : InterviewState)
    (text : String) : InterviewState × SubmitOutcome :=
  if h : s.step < script.length then
    let step_name := (script.get ⟨s.step, h⟩).1
    if text = "" then (s, .ignored)
    else if !is_medical_query text && s.step == 0 then (s, .warned)
    else (⟨s.step + 1, dictSet s.answers step_name text⟩, .accepted)
  else (s, .ignored)

/-- The "Start new analysis" button (app.py lines 160-163): reset the
step to 0 and clear the answers, from any state. -/
def restart (_s : InterviewState) : InterviewState := initState

/-- Apply `submitAnswer` once per text in the list, threading the state. -/
def runSubmits (script : List (String × String)) (s : InterviewState) :
    List String → InterviewState
  | [] => s
  | t :: ts => runSubmits script (submitAnswer script s t).1 ts

/-- Python `k.replace(underscore, space)` as used in the summary and the
step headings (app.py lines 123 and 139). -/
def replaceUnderscores (s : String) : String :=
  String.mk (s.toList.map fun c => if c = '_' then ' ' else c)

/-- The summary built on completion (app.py line 139): one line
`name: answer` per recorded answer, names with underscores rendered as
spaces, joined by newlines in dict (= insertion) order. -/
def summaryOf (answers : Answers) : String :=
  String.intercalate "\n"
    (answers.map fun kv => replaceUnderscores kv.1 ++ ": " ++ kv.2)

/-- The fixed diagnostic instruction template with the summary
interpolated at the end (app.py lines 145-154). -/
def diagnostic_prompt (summary : String) : String :=
  "You are a careful, expert medical AI. Given the following patient history, " ++
  "please do the following:\n" ++
  "1. Summarize the key findings.\n" ++
  "2. List the most likely differential diagnoses (with reasoning).\n" ++
  "3. Suggest the most appropriate next diagnostic tests (with justification).\n" ++
  "4. Suggest a general plan for management and follow-up.\n" ++
  "5. Remind the user that this is not a real diagnosis and they must consult a healthcare provider.\n\n" ++
  "Patient history:\n" ++ summary

/-- An observable outbound request to the Generation Client. -/
inductive Call where
  | generate (prompt : String)
deriving Repr, DecidableEq

/-- The external generate calls one render pass of Doctor Analysis mode
issues for a given state (app.py lines 121-157): the active branch
(step < script length) issues none; the completed branch builds the
summary and calls `get_gemini_response` with the diagnostic prompt,
unconditionally, on every render. -/
def renderDoctorCalls (script : List (String × String))
    (s : InterviewState) : List Call :=
  if s.step < script.length then []
  else [Call.generate (diagnostic_prompt (summaryOf s.answers))]

/-- A role-tagged message as used throughout app.py. -/
structure ChatMsg where
  role : String
  content : String
deriving Repr, DecidableEq

/-- One entry of the `chat_history` list built in the non-vision path of
`get_gemini_response` (app.py lines 40-42): role plus a parts list. -/
structure HistoryEntry where
  role : String
  parts : List String
deriving Repr, DecidableEq

/-- What the non-vision path of `get_gemini_response` hands to the
external client (app.py lines 39-46): the full history given to
`start_chat`, and the message given to `chat.send_message`. -/
structure ChatRequest where
  history : List HistoryEntry
  sent : String
deriving Repr, DecidableEq

/-- The non-vision path of `get_gemini_response` (app.py lines 39-46):
every message, the last one included, is copied into `chat_history`, and
then the last message content is sent again via `send_message`. The
Python `messages[-1]` raises an IndexError on an empty list, modelled as
`none`. -/
def buildChatRequest (messages : List ChatMsg) : Option ChatRequest :=
  match messages.getLast? with
  | none => none
  | some last =>
    some { history := messages.map (fun m => { role := m.role, parts := [m.content] })
           sent := last.content }

/-- MIME tag selection in the vision path of `get_gemini_response`
(app.py lines 31-36). -/
def mimeFor (file_type : String) : String :=
  if file_type = "jpg" ∨ file_type = "jpeg" ∨ file_type = "png" then
    "image/" ++ file_type
  else if file_type = "pdf" then "application/pdf"
  else "application/octet-stream"

/-- What the Report Result branch shows for one uploaded file
(app.py lines 183-193). -/
inductive ReportOutcome where
  | analysis (text : String)
  | errorShown (message : String)
deriving Repr, DecidableEq

/-- The Report Result try/except (app.py lines 183-193), parameterized by
the outcome `gen` of the single Generation Client call and by the session
state `sess` (of any type: the branch touches no session state). Returns
the unchanged session state, the rendered outcome — the analysis on
success, the `st.error` text on failure — and the number of generate
calls issued, which is 1 in both cases: one call inside the try, no
retry in the except. -/
def reportResultRender {α : Type} (sess : α) (gen : Except String String) :
    α × ReportOutcome × Nat :=
  match gen with
  | .ok text => (sess, .analysis text, 1)
  | .error e => (sess, .errorShown ("Failed to analyze the report: " ++ e), 1)

/-- States of the Doctor Analysis session reachable from the initial
state by submissions and restarts. -/
inductive Reachable (script : List (String × String)) : InterviewState → Prop where
  | init : Reachable script initState
  | submit {s : InterviewState} (text : String) :
      Reachable script s → Reachable script (submitAnswer script s text).1
  | restart {s : InterviewState} :
      Reachable script s → Reachable script (restart s)

/-- The two-step script of the end-to-end scenario of the spec: the first
two entries of the clinical script. -/
def twoStepScript : List (String × String) :=
  [("Chief Complaint", "What brings you in today? What is your main concern?"),
   ("HPI_Onset", "When did this problem start?")]

/-- Fifteen concrete accepted answers, one per clinical step (the first
one matches the keyword "pain"). -/
def demoAnswers : List String :=
  ["I have chest pain", "yesterday", "in my chest", "constant",
   "sharp", "exercise", "rest", "in the morning", "7 out of 10",
   "sweating", "none", "aspirin", "father had heart disease",
   "no smoking", "no other symptoms"]

/-- The interview state after submitting the fifteen demo answers. -/
def demoCompleted : InterviewState :=
  runSubmits clinical_steps initState demoAnswers

/- ### Helper lemmas -/

/-- `dictSet` appends a fresh key at the end of the dictionary. -/
theorem dictSet_append_of_not_mem {d : Answers} {k : String} (v : String)
    (hk : k ∉ d.map Prod.fst) : dictSet d k v = d ++ [(k, v)] := by
  have hc : ((d.map Prod.fst).contains k) = false := by
    simp [List.contains, List.elem_eq_mem, hk]
  simp only [dictSet, hc, Bool.false_eq_true, if_false]

/-- In a duplicate-free list the element at position `i` does not occur
among the first `i` elements. -/
theorem getElem_not_mem_take {l : List String} (hnd : l.Nodup) {i : Nat}
    (h : i < l.length) : l[i] ∉ l.take i := by
  intro hmem
  obtain ⟨j, hj, hj2⟩ := List.mem_iff_getElem.mp hmem
  have hjlt : j < i := by
    have := hj
    simp [List.length_take] at this
    omega
  rw [List.getElem_take] at hj2
  have hji : j = i := (hnd.getElem_inj_iff).mp hj2
  omega

/-- Characterization of an accepted submission: the step is active, the
text is nonempty and the step-0 gate does not fire. -/
theorem submitAnswer_accepted_eq (script : List (String × String))
    (s : InterviewState) (text : String) (h1 : s.step < script.length)
    (h2 : text ≠ "") (h3 : (!is_medical_query text && s.step == 0) = false) :
    submitAnswer script s text =
      (⟨s.step + 1, dictSet s.answers (script.get ⟨s.step, h1⟩).1 text⟩,
        .accepted) := by
  simp [submitAnswer, h1, h2, h3]

/-- Running a list of accepted answers from step `i` advances the step by
the number of answers and appends the (step name, answer) pairs in script
order. -/
theorem runSubmits_accepted_eq (script : List (String × String))
    (hnd : (script.map Prod.fst).Nodup) :
    ∀ (ts : List String) (i : Nat) (A : Answers),
      i + ts.length ≤ script.length →
      A.map Prod.fst = (script.map Prod.fst).take i →
      (∀ k (hk : k < ts.length),
        ts[k] ≠ "" ∧ (i + k = 0 → is_medical_query ts[k] = true)) →
      runSubmits script ⟨i, A⟩ ts =
        ⟨i + ts.length,
          A ++ List.zipWith (fun p t => (p.1, t)) (script.drop i) ts⟩ := by
  intro ts
  induction ts with
  | nil =>
    intro i A _ _ _
    simp [runSubmits]
  | cons t ts ih =>
    intro i A hlen hkeys hacc
    have hi : i < script.length := by
      simp only [List.length_cons] at hlen; omega
    have hi' : i < (script.map Prod.fst).length := by
      simpa using hi
    have ht0 := hacc 0 (by simp)
    have htne : t ≠ "" := by simpa using ht0.1
    have hgate : (!is_medical_query t && i == 0) = false := by
      by_cases h0 : i = 0
      · subst h0
        have hm : is_medical_query t = true := by simpa using ht0.2 rfl
        simp [hm]
      · simp [h0]
    have hfresh : (script.get ⟨i, hi⟩).1 ∉ A.map Prod.fst := by
      rw [hkeys]
      have : (script.get ⟨i, hi⟩).1 = (script.map Prod.fst)[i] := by
        simp [List.get_eq_getElem]
      rw [this]
      exact getElem_not_mem_take hnd hi'
    have hstep := submitAnswer_accepted_eq script ⟨i, A⟩ t hi htne (by simpa using hgate)
    have hkeys' : (A ++ [((script.get ⟨i, hi⟩).1, t)]).map Prod.fst =
        (script.map Prod.fst).take (i + 1) := by
      rw [List.take_succ]
      simp [hkeys, List.getElem?_eq_getElem hi', List.get_eq_getElem]
    have hacc' : ∀ k (hk : k < ts.length),
        ts[k] ≠ "" ∧ (i + 1 + k = 0 → is_medical_query ts[k] = true) := by
      intro k hk
      have := hacc (k + 1) (by simpa using Nat.succ_lt_succ hk)
      refine ⟨by simpa using this.1, ?_⟩
      intro habs
      omega
    have hrec := ih (i + 1) (A ++ [((script.get ⟨i, hi⟩).1, t)])
      (by simp only [List.length_cons] at hlen; omega) hkeys' hacc'
    have hdrop : script.drop i = script[i] :: script.drop (i + 1) :=
      List.drop_eq_getElem_cons hi
    calc runSubmits script ⟨i, A⟩ (t :: ts)
        = runSubmits script (submitAnswer script ⟨i, A⟩ t).1 ts := rfl
      _ = runSubmits script
            ⟨i + 1, A ++ [((script.get ⟨i, hi⟩).1, t)]⟩ ts := by
          rw [hstep, dictSet_append_of_not_mem t hfresh]
      _ = ⟨i + 1 + ts.length,
            (A ++ [((script.get ⟨i, hi⟩).1, t)]) ++
              List.zipWith (fun p t => (p.1, t)) (script.drop (i + 1)) ts⟩ :=
          hrec
      _ = ⟨i + (t :: ts).length,
            A ++ List.zipWith (fun p t => (p.1, t)) (script.drop i) (t :: ts)⟩ := by
          rw [hdrop, List.zipWith_cons_cons]
          simp only [InterviewState.mk.injEq]
          constructor
          · simp only [List.length_cons]
            omega
          · simp [List.get_eq_getElem]

/-- Invariant carried by every reachable state: the step never exceeds
the script length and the recorded keys are exactly the first `step` step
names, in order. -/
theorem reachable_inv_aux (script : List (String × String))
    (hnd : (script.map Prod.fst).Nodup) (s : InterviewState)
    (h : Reachable script s) :
    s.step ≤ script.length ∧
      s.answers.map Prod.fst = (script.map Prod.fst).take s.step := by
  induction h with
  | init => simp [initState]
  | restart _ _ => simp [restart, initState]
  | @submit s text _ ih =>
    obtain ⟨hle, hkeys⟩ := ih
    by_cases h1 : s.step < script.length
    · by_cases h2 : text = ""
      · simpa [submitAnswer, h1, h2] using ⟨hle, hkeys⟩
      · by_cases h3 : (!is_medical_query text && s.step == 0) = true
        · simpa [submitAnswer, h1, h2, h3] using ⟨hle, hkeys⟩
        · have h3' : (!is_medical_query text && s.step == 0) = false := by
            simpa using h3
          rw [submitAnswer_accepted_eq script s text h1 h2 h3']
          have hi' : s.step < (script.map Prod.fst).length := by simpa using h1
          have hfresh : (script.get ⟨s.step, h1⟩).1 ∉ s.answers.map Prod.fst := by
            rw [hkeys]
            have : (script.get ⟨s.step, h1⟩).1 = (script.map Prod.fst)[s.step] := by
              simp [List.get_eq_getElem]
            rw [this]
            exact getElem_not_mem_take hnd hi'
          rw [dictSet_append_of_not_mem text hfresh]
          dsimp only
          constructor
          · omega
          · rw [List.take_succ]
            simp [hkeys, List.getElem?_eq_getElem hi', List.get_eq_getElem]
    · simpa [submitAnswer, h1] using ⟨hle, hkeys⟩

/- ### Claim theorems -/

/-- C4 counterexample: the claim asserts `isMedical("I like painting")`
returns false, but the keyword "pain" occurs in "painting" as a
substring, so the code returns true. -/
theorem is_medical_query_painting_true :
    is_medical_query "I like painting" = true := by decide

/-- C4 amended: `is_medical_query` is case-insensitive and matches by
substring: "FEVER" and "fever" are accepted, the empty string is
rejected, and both "I have pain" and "I like painting" are accepted,
the latter because "pain" occurs inside "painting". -/
theorem is_medical_query_spec_examples :
    is_medical_query "FEVER" = true ∧
    is_medical_query "fever" = true ∧
    is_medical_query "" = false ∧
    is_medical_query "I like painting" = true ∧
    is_medical_query "I have pain" = true := by decide

/-- C6: the restart action, from any interview state, resets to step 0
with an empty answers mapping, and it is idempotent. -/
theorem restart_resets_and_idempotent (s : InterviewState) :
    restart s = initState ∧ (restart s).step = 0 ∧
    (restart s).answers = [] ∧ restart (restart s) = restart s := by
  simp [restart, initState]

/-- C9: submitting the empty string never changes the interview state:
the truthiness guard on `user_input` skips the whole submission branch at
every step, so nothing is recorded and the step does not advance. -/
theorem empty_input_no_state_change (s : InterviewState) :
    submitAnswer clinical_steps s "" = (s, SubmitOutcome.ignored) := by
  unfold submitAnswer
  split <;> simp

/-- C8: in Report Result mode a failed generation call is caught: the
session state is returned unchanged, the rendered outcome is the visible
error message, and exactly one generate call was issued (no retry). -/
theorem report_error_caught_state_preserved {α : Type} (sess : α)
    (e : String) :
    (reportResultRender sess (Except.error e)).1 = sess ∧
    (reportResultRender sess (Except.error e)).2.1 =
      ReportOutcome.errorShown ("Failed to analyze the report: " ++ e) ∧
    (reportResultRender sess (Except.error e)).2.2 = 1 := by
  simp [reportResultRender]

/-- C1: for any duplicate-free script and any matching sequence of
accepted answers (nonempty, the first one passing the medical filter),
the interview passes through Active(0), Active(1), …, reaching step k
after k submissions, and after all N submissions it is Completed with
the answers mapping holding exactly the script step names bound to the
submitted texts, in script order. -/
theorem submitAnswer_full_run (script : List (String × String))
    (texts : List String) (hnd : (script.map Prod.fst).Nodup)
    (hlen : texts.length = script.length)
    (hacc : ∀ k (hk : k < texts.length),
      texts[k] ≠ "" ∧ (k = 0 → is_medical_query texts[k] = true)) :
    (∀ k, k ≤ script.length →
      (runSubmits script initState (texts.take k)).step = k) ∧
    runSubmits script initState texts =
      ⟨script.length, List.zipWith (fun p t => (p.1, t)) script texts⟩ := by
  constructor
  · intro k hk
    have h := runSubmits_accepted_eq script hnd (texts.take k) 0 []
      (by simp [List.length_take]; omega)
      (by simp)
      (by
        intro j hj
        have hj' : j < texts.length := by
          simp [List.length_take] at hj
          omega
        have hjt := hacc j hj'
        simpa [List.getElem_take] using hjt)
    simp only [initState]
    rw [h]
    simp [List.length_take]
    omega
  · have h := runSubmits_accepted_eq script hnd texts 0 []
      (by omega) (by simp)
      (by intro k hk; simpa using hacc k hk)
    simp only [initState]
    rw [h]
    simp [hlen]

/-- Witness for C1: the two-step script, completed by two accepted
answers, passes through step 1 and ends with both answers recorded. -/
theorem submitAnswer_full_run_witness :
    (runSubmits twoStepScript initState
        (["I have chest pain", "since yesterday"].take 1)).step = 1 ∧
    runSubmits twoStepScript initState
        ["I have chest pain", "since yesterday"] =
      ⟨twoStepScript.length,
        List.zipWith (fun p t => (p.1, t)) twoStepScript
          ["I have chest pain", "since yesterday"]⟩ :=
  ⟨(submitAnswer_full_run twoStepScript
      ["I have chest pain", "since yesterday"]
      (by decide) (by decide) (by decide)).1 1 (by decide),
   (submitAnswer_full_run twoStepScript
      ["I have chest pain", "since yesterday"]
      (by decide) (by decide) (by decide)).2⟩

/-- C2 counterexample: the empty string is a text for which
`is_medical_query` is false, yet the submission at Active(0) is silently
skipped by the truthiness guard — the state does not change, but no
validation warning is signalled. -/
theorem step0_empty_input_not_warned :
    is_medical_query "" = false ∧
    submitAnswer clinical_steps initState "" =
      (initState, SubmitOutcome.ignored) ∧
    SubmitOutcome.ignored ≠ SubmitOutcome.warned := by decide

/-- C2 amended: for nonempty text failing the medical filter, the
submission at Active(0) is rejected: the state stays at step 0 with
empty answers and the validation warning is signalled. -/
theorem step0_nonmedical_rejected (text : String) (hne : text ≠ "")
    (hmed : is_medical_query text = false) :
    submitAnswer clinical_steps initState text =
      (initState, SubmitOutcome.warned) := by
  have h0 : (0 : Nat) < clinical_steps.length := by decide
  simp [submitAnswer, initState, hne, hmed, h0]

/-- Witness for the amended C2 at the nonempty non-medical text
"hello". -/
theorem step0_nonmedical_rejected_witness :
    submitAnswer clinical_steps initState "hello" =
      (initState, SubmitOutcome.warned) :=
  step0_nonmedical_rejected "hello" (by decide) (by decide)

/-- C3 (evaluation of the code at the failing input): after the fifteen
demo answers the interview is completed, and every render of the
completed view issues a generate call — two consecutive renders of the
same completed instance issue two calls, since the completion branch
calls the client unconditionally with no memoization or one-shot flag. -/
theorem completed_render_duplicates_generate_call :
    demoCompleted.step = clinical_steps.length ∧
    (renderDoctorCalls clinical_steps demoCompleted).length = 1 ∧
    (renderDoctorCalls clinical_steps demoCompleted ++
      renderDoctorCalls clinical_steps demoCompleted).length = 2 := by decide

/-- C5 counterexample: the scenario of the claim cannot reach Completed.
Its first answer "I have a headache" matches no keyword, so step 0
rejects it (and "since yesterday" is likewise rejected at step 0), the
two-submission run stays at the initial state, and its summary is not
the claimed string. -/
theorem headache_scenario_rejected_at_step0 :
    is_medical_query "I have a headache" = false ∧
    submitAnswer twoStepScript initState "I have a headache" =
      (initState, SubmitOutcome.warned) ∧
    runSubmits twoStepScript initState
        ["I have a headache", "since yesterday"] = initState ∧
    summaryOf (runSubmits twoStepScript initState
        ["I have a headache", "since yesterday"]).answers ≠
      "Chief Complaint: I have a headache\nHPI Onset: since yesterday" := by
  decide

/-- C5 amended: for any duplicate-free script completed by accepted
answers, the summary is one line per step of the form `name: answer`
with underscores in the step name rendered as spaces, joined by
newlines in script order. (The literal scenario of the claim is
unreachable: its first answer is rejected at step 0.) -/
theorem summary_format_of_completed_run (script : List (String × String))
    (texts : List String) (hnd : (script.map Prod.fst).Nodup)
    (hlen : texts.length = script.length)
    (hacc : ∀ k (hk : k < texts.length),
      texts[k] ≠ "" ∧ (k = 0 → is_medical_query texts[k] = true)) :
    summaryOf (runSubmits script initState texts).answers =
      String.intercalate "\n"
        (List.zipWith (fun p t => replaceUnderscores p.1 ++ ": " ++ t)
          script texts) := by
  have h := runSubmits_accepted_eq script hnd texts 0 []
    (by omega) (by simp)
    (by intro k hk; simpa using hacc k hk)
  simp only [initState]
  rw [h]
  simp [summaryOf, List.map_zipWith]

/-- Witness for the amended C5: an accepted variant of the scenario (its
first answer contains the keyword "fever") completes and yields the
corresponding two-line summary with "HPI_Onset" rendered as
"HPI Onset". -/
theorem summary_format_of_completed_run_witness :
    summaryOf (runSubmits twoStepScript initState
        ["I have a headache and fever", "since yesterday"]).answers =
      "Chief Complaint: I have a headache and fever\nHPI Onset: since yesterday" := by
  have h := summary_format_of_completed_run twoStepScript
    ["I have a headache and fever", "since yesterday"]
    (by decide) (by decide) (by decide)
  rw [h]
  decide

/-- C7: every state reachable from the initial state by submissions and
restarts satisfies the invariant: the current step equals the number of
keys in the answers mapping, and the keys are exactly the step names of
the first `currentStep` script entries, in order. -/
theorem reachable_interview_invariant (s : InterviewState)
    (h : Reachable clinical_steps s) :
    s.step = (s.answers.map Prod.fst).length ∧
    s.answers.map Prod.fst = (clinical_steps.take s.step).map Prod.fst := by
  have hnd : (clinical_steps.map Prod.fst).Nodup := by decide
  obtain ⟨hle, hkeys⟩ := reachable_inv_aux clinical_steps hnd s h
  constructor
  · rw [hkeys]
    simp [List.length_take]
    omega
  · rw [hkeys, List.map_take]

/-- Witness for C7: the state after one accepted submission from the
initial state is reachable and satisfies the invariant. -/
theorem reachable_interview_invariant_witness :
    ((submitAnswer clinical_steps initState "I have chest pain").1).step =
      (((submitAnswer clinical_steps initState
        "I have chest pain").1).answers.map Prod.fst).length ∧
    ((submitAnswer clinical_steps initState
        "I have chest pain").1).answers.map Prod.fst =
      (clinical_steps.take ((submitAnswer clinical_steps initState
        "I have chest pain").1).step).map Prod.fst :=
  reachable_interview_invariant _
    (Reachable.submit "I have chest pain" Reachable.init)

/-- C10: in the non-vision path, whenever the message list has a last
message, the request handed to the external client forwards that
message's content twice: the forwarded history has the full length of
the input and ends with an entry carrying the content, and the same
content is also the message actually sent. -/
theorem chat_request_duplicates_last_message (messages : List ChatMsg)
    (last : ChatMsg) (h : messages.getLast? = some last) :
    (buildChatRequest messages).map ChatRequest.sent = some last.content ∧
    (buildChatRequest messages).map (fun r => r.history.getLast?) =
      some (some { role := last.role, parts := [last.content] }) ∧
    (buildChatRequest messages).map (fun r => r.history.length) =
      some messages.length := by
  simp only [buildChatRequest, h]
  refine ⟨rfl, ?_, by simp⟩
  simp [List.getLast?_map, h]

/-- Witness for C10 on a one-message conversation: the content appears
both as the last history entry and as the sent message. -/
theorem chat_request_duplicates_last_message_witness :
    (buildChatRequest [⟨"user", "hello doctor"⟩]).map ChatRequest.sent =
      some "hello doctor" ∧
    (buildChatRequest [⟨"user", "hello doctor"⟩]).map
        (fun r => r.history.getLast?) =
      some (some { role := "user", parts := ["hello doctor"] }) ∧
    (buildChatRequest [⟨"user", "hello doctor"⟩]).map
        (fun r => r.history.length) = some 1 :=
  chat_request_duplicates_last_message [⟨"user", "hello doctor"⟩]
    ⟨"user", "hello doctor"⟩ (by decide)
